import Mathlib

/-!
Verification of the cache-reconciler core of the APOD downloader script
(src/apod_downloader.py) against its natural-language specification.

The Python script is sequential glue around: a JSON cache file mapping date
strings to entry dicts, one metadata HTTP GET, one image download, and a few
subprocess calls.  We embed the cache data model and every operation the
claims mention as executable Lean definitions, translated from the source.
External collaborators (HTTP, the filesystem, subprocesses) are modelled by
explicit parameters (success flags, the metadata value returned) and by an
event trace recording the side effects the code would perform, in order.
-/

namespace Apod

/-- A cache entry as stored in apod.json.  In Python this is a plain dict;
each field may be absent, which we model with Option.  `entry.get(k)` is
field access, `entry.get(k, d)` is `(field).getD d`. -/
structure Entry where
  title : Option String := none
  explanation : Option String := none
  url : Option String := none
  img : Option String := none
  mp3 : Option String := none
  deriving Repr, DecidableEq

/-- The cache store: a Python dict keyed by date string, in insertion
order (as json.load preserves it).  Keys are unique in any store that a
Python dict can produce. -/
abbrev Store := List (String × Entry)

/-- Python dict lookup `data[k]` / `data.get(k)`: first binding wins. -/
def dictLookup : Store → String → Option Entry
  | [], _ => none
  | (k, v) :: rest, key => if k = key then some v else dictLookup rest key

/-- Python dict assignment `data[k] = v`: replaces in place if the key is
present, appends otherwise. -/
def dictInsert : Store → String → Entry → Store
  | [], k, v => [(k, v)]
  | (k0, v0) :: rest, k, v =>
      if k0 = k then (k0, v) :: rest else (k0, v0) :: dictInsert rest k v

/-- Python truthiness of an optional string: None and the empty string are
falsy (`if not x`). -/
def truthy : Option String → Bool
  | none => false
  | some s => !s.isEmpty

/-- Python `a or b` on optional strings, as in `apod_data.get("hdurl") or
apod_data.get("url")`. -/
def pyOr (a b : Option String) : Option String :=
  if truthy a then a else b

/-! ## JSON persistence (load_apod_json / save_apod_json)

The cache file holds one JSON document.  We embed the JSON layer at the
level of the abstract syntax tree that json.dump serialises and json.load
parses back; the text rendering itself is the Python standard library,
outside this repository.  Only the shapes the script writes (objects of
objects of strings) get constructors. -/

inductive Json where
  | str (s : String)
  | obj (fields : List (String × Json))

/-- One optional entry field, as it appears in the serialised object. -/
def optField (k : String) : Option String → List (String × Json)
  | none => []
  | some v => [(k, Json.str v)]

/-- Serialisation of one entry dict by json.dump. -/
def encodeEntry (e : Entry) : Json :=
  Json.obj (optField "title" e.title ++ optField "explanation" e.explanation
    ++ optField "url" e.url ++ optField "img" e.img ++ optField "mp3" e.mp3)

/-- First binding for a key in a JSON object, as json.load builds dicts. -/
def lookupField : List (String × Json) → String → Option Json
  | [], _ => none
  | (k, v) :: rest, key => if k = key then some v else lookupField rest key

/-- String-valued field of a parsed JSON object, None when absent. -/
def getStrField (fs : List (String × Json)) (k : String) : Option String :=
  match lookupField fs k with
  | some (Json.str s) => some s
  | _ => none

/-- The entry dict json.load reconstructs from one serialised entry. -/
def decodeEntry : Json → Option Entry
  | Json.obj fs =>
      some { title := getStrField fs "title",
             explanation := getStrField fs "explanation",
             url := getStrField fs "url",
             img := getStrField fs "img",
             mp3 := getStrField fs "mp3" }
  | _ => none

def decodeFields : List (String × Json) → Option Store
  | [] => some []
  | (k, j) :: rest =>
      match decodeEntry j, decodeFields rest with
      | some e, some s => some ((k, e) :: s)
      | _, _ => none

def decodeStore : Json → Option Store
  | Json.obj fs => decodeFields fs
  | _ => none

/-- save_apod_json: the JSON document the function writes to the cache
file (whole-document replace). -/
def save_apod_json (data : Store) : Json :=
  Json.obj (data.map fun p => (p.1, encodeEntry p.2))

/-- load_apod_json: a missing cache file yields the empty mapping; an
existing file is parsed by json.load.  The result is None only for a
document that is not store-shaped (which this script never writes). -/
def load_apod_json (file : Option Json) : Option Store :=
  match file with
  | none => some []
  | some j => decodeStore j

/-! ## Date validation (is_valid_date)

The source runs datetime.strptime(date_str, "%Y-%m-%d") and reports a
ValueError as invalid.  CPython strptime compiles the format to the regex
(?P<Y>\d\d\d\d)-(?P<m>1[0-2]|0[1-9]|[1-9])-(?P<d>3[01]|[12]\d|0[1-9]|[1-9])
anchored at the start, rejects unconverted trailing data, and then builds
datetime(Y, m, d), which checks 1 <= Y and d <= days-in-month.  Because the
year token is exactly four digits and the other tokens are digit-only, a
string matches the regex exactly when splitting it on the dash characters
yields three components accepted by the token recognisers below.  (We read
the digit class as ASCII digits.) -/

/-- Value of one ASCII digit character, None otherwise (the regex \d). -/
def digitVal (c : Char) : Option Nat :=
  if 48 ≤ c.toNat ∧ c.toNat ≤ 57 then some (c.toNat - 48) else none

/-- The %Y token: exactly four digits. -/
def yearTok : List Char → Option Nat
  | [a, b, c, d] =>
      match digitVal a, digitVal b, digitVal c, digitVal d with
      | some x, some y, some z, some w => some (1000 * x + 100 * y + 10 * z + w)
      | _, _, _, _ => none
  | _ => none

/-- The %m token: 1[0-2] or 0[1-9] or [1-9]. -/
def monthTok : List Char → Option Nat
  | [c] =>
      match digitVal c with
      | some v => if 1 ≤ v then some v else none
      | none => none
  | [c1, c2] =>
      match digitVal c1, digitVal c2 with
      | some h, some l =>
          if h = 1 ∧ l ≤ 2 then some (10 + l)
          else if h = 0 ∧ 1 ≤ l then some l
          else none
      | _, _ => none
  | _ => none

/-- The %d token: 3[01] or [12]\d or 0[1-9] or [1-9]. -/
def dayTok : List Char → Option Nat
  | [c] =>
      match digitVal c with
      | some v => if 1 ≤ v then some v else none
      | none => none
  | [c1, c2] =>
      match digitVal c1, digitVal c2 with
      | some h, some l =>
          if h = 3 ∧ l ≤ 1 then some (30 + l)
          else if h = 1 ∨ h = 2 then some (10 * h + l)
          else if h = 0 ∧ 1 ≤ l then some l
          else none
      | _, _ => none
  | _ => none

/-- Split a character list on the dash separators of the format string. -/
def splitDash : List Char → List (List Char)
  | [] => [[]]
  | c :: rest =>
      if c = '-' then [] :: splitDash rest
      else
        match splitDash rest with
        | g :: gs => (c :: g) :: gs
        | [] => [[c]]

/-- The Gregorian leap-year rule used by datetime. -/
def isLeapYear (y : Nat) : Bool :=
  (y % 4 = 0 && y % 100 != 0) || y % 400 = 0

/-- Days in a month, as datetime validates them. -/
def daysInMonth (y m : Nat) : Nat :=
  if m = 2 then (if isLeapYear y then 29 else 28)
  else if m = 4 ∨ m = 6 ∨ m = 9 ∨ m = 11 then 30
  else 31

/-- datetime.strptime(s, "%Y-%m-%d"): the (year, month, day) it produces,
or None for the ValueError the source catches. -/
def parseDate (s : String) : Option (Nat × Nat × Nat) :=
  match splitDash s.toList with
  | [ys, ms, ds] =>
      match yearTok ys, monthTok ms, dayTok ds with
      | some y, some m, some d =>
          if 1 ≤ y ∧ d ≤ daysInMonth y m then some (y, m, d) else none
      | _, _, _ => none
  | _ => none

/-- is_valid_date from the source: True exactly when strptime succeeds. -/
def is_valid_date (s : String) : Bool :=
  (parseDate s).isSome

/-! Spec-side definitions for claim C4 (refinement comparison): a calendar
date written in the exact zero-padded YYYY-MM-DD format. -/

def digitChar (n : Nat) : Char := Char.ofNat (48 + n)

def pad4 (n : Nat) : List Char :=
  [digitChar (n / 1000 % 10), digitChar (n / 100 % 10),
   digitChar (n / 10 % 10), digitChar (n % 10)]

def pad2 (n : Nat) : List Char :=
  [digitChar (n / 10 % 10), digitChar (n % 10)]

def canonicalDateChars (y m d : Nat) : List Char :=
  pad4 y ++ '-' :: (pad2 m ++ '-' :: pad2 d)

/-- The canonical zero-padded rendering YYYY-MM-DD of a date triple. -/
def canonicalDateString (y m d : Nat) : String :=
  (canonicalDateChars y m d).asString

/-- A real calendar date representable by datetime with a 4-digit year. -/
def isRealDate (y m d : Nat) : Bool :=
  1 ≤ y && y ≤ 9999 && 1 ≤ m && m ≤ 12 && 1 ≤ d && d ≤ daysInMonth y m

/-- Modelled from the claim wording: the string is a real calendar date in
the exact format YYYY-MM-DD with zero-padded month and day. -/
def SpecCanonicalDate (s : String) : Prop :=
  ∃ y m d, isRealDate y m d = true ∧ s = canonicalDateString y m d

/-! ## Metadata and the resolve path of main (lines 636-685)

fetch_apod_metadata returns the parsed JSON object of the remote service;
main reads its media_type, hdurl, url, title and explanation fields with
.get.  The HTTP layer is an external collaborator: we pass the metadata
object in, together with success flags for the metadata GET and for the
image download (download_image raises on transport or write failure). -/

structure ApodMeta where
  media_type : Option String := none
  hdurl : Option String := none
  url : Option String := none
  title : Option String := none
  explanation : Option String := none
  deriving Repr, DecidableEq

/-- The side effects main performs while resolving a date, in order. -/
inductive Ev where
  | mkdirDateDir (date : String)
  | fetchMeta (date : String)
  | download (url : String)
  | fileWrite (path : String)
  | storeSave (s : Store)
  deriving Repr, DecidableEq

/-- How one resolution ends. -/
inductive Outcome where
  | cached (e : Entry)
  | fetched (e : Entry)
  | fetchFailed
  | notAnImage (mt : Option String)
  | missingUrl
  | downloadFailed
  deriving Repr, DecidableEq

/-- Result of one resolution: the outcome, the persisted store after the
call, and the trace of side effects attempted. -/
structure RResult where
  out : Outcome
  store : Store
  trace : List Ev
  deriving Repr, DecidableEq

/-- os.path.basename of urlparse(url).path: what follows the last slash of
the path component (scheme and network location skipped, query and
fragment cut off). -/
def urlBasename (u : String) : String :=
  let cs := u.toList
  let afterScheme :=
    match cs.findIdx? (fun c => c = ':') with
    | some i =>
        if (cs.drop (i + 1)).take 2 = ['/', '/'] then
          (cs.drop (i + 3)).dropWhile (fun c => c ≠ '/')
        else cs.drop (i + 1)
    | none => cs
  let path := afterScheme.takeWhile fun c => c ≠ '?' ∧ c ≠ '#'
  (path.foldl (fun acc c => if c = '/' then [] else acc ++ [c]) ([] : List Char)).asString

/-- APOD_DIR from the source, with the home directory abstracted. -/
def apodDir : String := "~/Pictures/apod"

/-- download_image: the save path it returns, save_dir / basename(url). -/
def download_image (image_url : String) (save_dir : String) : String :=
  save_dir ++ "/" ++ urlBasename image_url

/-- The entry dict update_apod_json builds from the metadata and the local
image path (lines 106-115); absent metadata fields default to "". -/
def entryFromMeta (meta : ApodMeta) (image_path : String) : Entry :=
  { title := some (meta.title.getD ""),
    explanation := some (meta.explanation.getD ""),
    url := some (meta.url.getD ""),
    img := some image_path,
    mp3 := none }

/-- update_apod_json: insert the new entry and persist the whole store. -/
def update_apod_json (date_str : String) (meta : ApodMeta) (image_path : String)
    (data : Store) : Store :=
  dictInsert data date_str (entryFromMeta meta image_path)

/-- The cache-reconcile block of main (lines 655-685), after the date has
been validated: return the cached entry if present, otherwise fetch the
metadata, reject non-images and missing URLs, download, and only then
insert and persist the new entry.  fetchOk and dlOk say whether the two
network operations raise; when one raises, the exception propagates and
everything after it is not executed. -/
def resolve (store : Store) (date : String) (meta : ApodMeta)
    (fetchOk dlOk : Bool) : RResult :=
  match dictLookup store date with
  | some e => ⟨Outcome.cached e, store, []⟩
  | none =>
      if !fetchOk then
        ⟨Outcome.fetchFailed, store, [Ev.mkdirDateDir date, Ev.fetchMeta date]⟩
      else if meta.media_type ≠ some "image" then
        ⟨Outcome.notAnImage meta.media_type, store, [Ev.mkdirDateDir date, Ev.fetchMeta date]⟩
      else
        match pyOr meta.hdurl meta.url with
        | none => ⟨Outcome.missingUrl, store, [Ev.mkdirDateDir date, Ev.fetchMeta date]⟩
        | some u =>
            if u.isEmpty then
              ⟨Outcome.missingUrl, store, [Ev.mkdirDateDir date, Ev.fetchMeta date]⟩
            else if dlOk then
              ⟨Outcome.fetched (entryFromMeta meta (download_image u (apodDir ++ "/" ++ date))),
               dictInsert store date (entryFromMeta meta (download_image u (apodDir ++ "/" ++ date))),
               [Ev.mkdirDateDir date, Ev.fetchMeta date, Ev.download u,
                Ev.fileWrite (download_image u (apodDir ++ "/" ++ date)),
                Ev.storeSave (dictInsert store date
                  (entryFromMeta meta (download_image u (apodDir ++ "/" ++ date))))]⟩
            else
              ⟨Outcome.downloadFailed, store,
               [Ev.mkdirDateDir date, Ev.fetchMeta date, Ev.download u]⟩

/-- The download URLs appearing in a trace, in order. -/
def downloadUrls : List Ev → List String
  | [] => []
  | Ev.download u :: rest => u :: downloadUrls rest
  | _ :: rest => downloadUrls rest

/-- The store snapshots persisted in a trace, in order. -/
def storeSaves : List Ev → List Store
  | [] => []
  | Ev.storeSave s :: rest => s :: storeSaves rest
  | _ :: rest => storeSaves rest

/-! ## main: exit codes and the persisted store (lines 636-731)

We model an invocation with the optional wallpaper / viewer / audio flags
off (those branches do not change the exit code of a completed run; when
one of them raises, the run does not complete).  The exit code is
some 0 for a normal return, some 1 for sys.exit(1), and none when an
uncaught exception aborts the process (it then exits abnormally). -/

structure MainResult where
  exitCode : Option Nat
  store : Store
  deriving Repr, DecidableEq

/-- main, from the startup API-key check (lines 16-19) through the cache
reconcile.  dateArg is the positional argument (None when absent; the
sentinel written by the --today flag is replaced first), todayStr the
current UTC date string. -/
def mainRun (nasaApiKey : Option String) (listCached : Bool)
    (dateArg : Option String) (todayStr : String) (store : Store)
    (meta : ApodMeta) (fetchOk dlOk : Bool) : MainResult :=
  if !truthy nasaApiKey then ⟨some 1, store⟩
  else
    let dateStr := if dateArg = some "__TODAY__" then some todayStr else dateArg
    if listCached then ⟨some 0, store⟩
    else
      match dateStr with
      | none => ⟨some 1, store⟩
      | some d =>
          if d.isEmpty then ⟨some 1, store⟩
          else if is_valid_date d = false then ⟨some 1, store⟩
          else
            let r := resolve store d meta fetchOk dlOk
            match r.out with
            | Outcome.cached _ => ⟨some 0, r.store⟩
            | Outcome.fetched _ => ⟨some 0, r.store⟩
            | Outcome.notAnImage _ => ⟨some 0, r.store⟩
            | Outcome.missingUrl => ⟨some 0, r.store⟩
            | Outcome.fetchFailed => ⟨none, r.store⟩
            | Outcome.downloadFailed => ⟨none, r.store⟩

/-! ## Audio (build_mp3_path_for_image / ensure_apod_audio, lines 30-73) -/

/-- Index of the last dot of a file name, if any. -/
def lastDotIdx (cs : List Char) : Option Nat :=
  match cs.reverse.findIdx? (fun c => c = '.') with
  | some j => some (cs.length - 1 - j)
  | none => none

/-- pathlib suffix removal on the final path component: the name is cut at
its last dot when that dot is neither the first nor the last character
(pathlib treats a leading dot as a hidden-file marker and a trailing dot
as no suffix); otherwise the name is kept whole. -/
def stemChars (name : List Char) : List Char :=
  match lastDotIdx name with
  | some i => if 0 < i ∧ i + 1 < name.length then name.take i else name
  | none => name

/-- Split a character list on a separator (String.split semantics). -/
def splitChar (sep : Char) : List Char → List (List Char)
  | [] => [[]]
  | c :: rest =>
      if c = sep then [] :: splitChar sep rest
      else
        match splitChar sep rest with
        | g :: gs => (c :: g) :: gs
        | [] => [[c]]

/-- Join character groups with a separator. -/
def joinChar (sep : Char) : List (List Char) → List Char
  | [] => []
  | [g] => g
  | g :: gs => g ++ sep :: joinChar sep gs

/-- build_mp3_path_for_image: Path(image_path).with_suffix(".mp3"). -/
def build_mp3_path_for_image (image_path : String) : String :=
  let comps := splitChar '/' image_path.toList
  let name := (comps.getLast?).getD []
  let newName := stemChars name ++ ('.' :: 'm' :: 'p' :: '3' :: [])
  (joinChar '/' (comps.dropLast ++ [newName])).asString

/-- Python str.strip(): whitespace removed from both ends. -/
def pyStrip (s : String) : String :=
  (((s.toList.dropWhile Char.isWhitespace).reverse.dropWhile Char.isWhitespace).reverse).asString

/-- The narration source text (lines 53-56): stripped title, blank line,
stripped explanation; a fixed placeholder when that is empty. -/
def mkText (e : Entry) : String :=
  let title := pyStrip (e.title.getD "")
  let explanation := pyStrip (e.explanation.getD "")
  let t := pyStrip (title ++ "\n\n" ++ explanation)
  if t.isEmpty then "Astronomy Picture of the Day." else t

/-- State ensure_apod_audio touches: which audio files exist on disk, and
the persisted cache store. -/
structure AudioState where
  fs : List String
  storeFile : Store
  deriving Repr, DecidableEq

/-- Side effects of ensure_apod_audio, in order. -/
inductive AEv where
  | synth (text voice out : String)
  | loadStore
  | saveStore
  deriving Repr, DecidableEq

/-- Result of ensure_apod_audio: the returned path or the propagated
exception, the state after the call, and the effects performed. -/
structure AResult where
  res : Except String String
  st : AudioState
  trace : List AEv

/-- The reconcile write of the cached branch (lines 48-50):
data[date_str]["mp3"] = path raises KeyError when the date is absent. -/
def setMp3Strict (s : Store) (date p : String) : Option Store :=
  match dictLookup s date with
  | none => none
  | some e => some (dictInsert s date { e with mp3 := some p })

/-- The write of the synthesis branch (lines 67-70): a missing date key is
first bound to an empty dict. -/
def setMp3Upsert (s : Store) (date p : String) : Store :=
  match dictLookup s date with
  | none => dictInsert s date { mp3 := some p }
  | some e => dictInsert s date { e with mp3 := some p }

/-- ensure_apod_audio (lines 34-73).  synthOk says whether the narration
collaborator succeeds; on failure its exception propagates uncaught and
the store is not touched. -/
def ensure_apod_audio (date_str : String) (entry : Entry) (voice_id : String)
    (force : Bool) (synthOk : Bool) (st : AudioState) : AResult :=
  match entry.img with
  | none => ⟨Except.error ("No image path for " ++ date_str ++ "; cannot create audio."), st, []⟩
  | some img =>
      if img.isEmpty then
        ⟨Except.error ("No image path for " ++ date_str ++ "; cannot create audio."), st, []⟩
      else
        let mp3 := build_mp3_path_for_image img
        if st.fs.contains mp3 && !force then
          if entry.mp3 = some mp3 then ⟨Except.ok mp3, st, []⟩
          else
            match setMp3Strict st.storeFile date_str mp3 with
            | none => ⟨Except.error "KeyError", st, [AEv.loadStore]⟩
            | some s2 => ⟨Except.ok mp3, ⟨st.fs, s2⟩, [AEv.loadStore, AEv.saveStore]⟩
        else
          let text := mkText entry
          if synthOk then
            let s2 := setMp3Upsert st.storeFile date_str mp3
            ⟨Except.ok mp3, ⟨mp3 :: st.fs, s2⟩,
             [AEv.synth text voice_id mp3, AEv.loadStore, AEv.saveStore]⟩
          else ⟨Except.error "synthesis failed", st, [AEv.synth text voice_id mp3]⟩

/-- Number of synthesis invocations in a trace. -/
def synthCount : List AEv → Nat
  | [] => 0
  | AEv.synth _ _ _ :: rest => synthCount rest + 1
  | _ :: rest => synthCount rest

/-! ## Desktop environment (get_desktop_env / set_background, lines 117-137) -/

/-- What the two probes can observe: the XDG_CURRENT_DESKTOP variable and
whether an xfce4-session process exists (pgrep exit status). -/
structure EnvState where
  xdgCurrentDesktop : Option String
  xfceSessionRunning : Bool
  deriving Repr, DecidableEq

/-- get_desktop_env: the string returned, or None when the function falls
through both probes (prints a diagnostic and returns implicitly). -/
def get_desktop_env (env : EnvState) : Option String :=
  match env.xdgCurrentDesktop with
  | some v =>
      if v = "ubuntu:GNOME" then some "ubuntu:GNOME"
      else if env.xfceSessionRunning then some "ubuntu:xfce4" else none
  | none => if env.xfceSessionRunning then some "ubuntu:xfce4" else none

/-- Substring containment, Python needle in haystack. -/
def strContains (haystack needle : String) : Bool :=
  let h := haystack.toList
  let n := needle.toList
  (List.range (h.length + 1)).any fun i => (h.drop i).take n.length = n

/-- set_background: which branch runs.  On the string returned by
get_desktop_env the code evaluates "xfce" in de, then "GNOME" in de; when
get_desktop_env produced None that membership test raises TypeError
(argument of type NoneType is not iterable), which propagates. -/
inductive BgAction where
  | ranXfce
  | ranGnome
  | noAction
  deriving Repr, DecidableEq

def set_background (env : EnvState) : Except String BgAction :=
  match get_desktop_env env with
  | none => Except.error "TypeError: argument of type NoneType is not iterable"
  | some de =>
      if strContains de "xfce" then Except.ok BgAction.ranXfce
      else if strContains de "GNOME" then Except.ok BgAction.ranGnome
      else Except.ok BgAction.noAction

/-! ## Listing (list_cached_apods, lines 194-203) -/

/-- The line printed for one entry: absent title and explanation fields
have defaults, the explanation is cut to its first 200 characters. -/
def entryLine (date_str : String) (e : Entry) : String :=
  "🗓️ " ++ date_str ++ ": " ++ e.title.getD "No Title" ++ "\n   "
    ++ ((e.explanation.getD "No explanation").take 200) ++ "...\n"

/-- sorted(data.items()): Python sorts the (key, value) tuples; with the
distinct keys of a dict the comparison is decided by the keys, compared as
strings (code-point lexicographic, as Lean String order). -/
def pySortedItems (store : Store) : Store :=
  store.mergeSort fun a b => decide (a.1 ≤ b.1)

/-- list_cached_apods: the printed lines and the persisted store after the
call (the function only loads; it never saves). -/
def list_cached_apods (store : Store) : List String × Store :=
  if store.isEmpty then (["No cached APODs found."], store)
  else ((pySortedItems store).map fun p => entryLine p.1 p.2, store)

/-- Ascending calendar order of two date strings, through the dates they
parse to. -/
def calendarLe (s1 s2 : String) : Prop :=
  ∃ t1 t2, parseDate s1 = some t1 ∧ parseDate s2 = some t2 ∧
    (t1.1 < t2.1 ∨ (t1.1 = t2.1 ∧ (t1.2.1 < t2.2.1 ∨ (t1.2.1 = t2.2.1 ∧ t1.2.2 ≤ t2.2.2))))

/-! ## Helper lemmas -/

theorem dictLookup_dictInsert_self (s : Store) (k : String) (v : Entry) :
    dictLookup (dictInsert s k v) k = some v := by
  induction s with
  | nil => simp [dictInsert, dictLookup]
  | cons hd tl ih =>
      obtain ⟨k0, v0⟩ := hd
      by_cases h : k0 = k
      · simp [dictInsert, dictLookup, h]
      · simp [dictInsert, dictLookup, h, ih]

theorem decodeEntry_encodeEntry (e : Entry) : decodeEntry (encodeEntry e) = some e := by
  obtain ⟨t, x, u, i, m⟩ := e
  cases t <;> cases x <;> cases u <;> cases i <;> cases m <;> rfl

/-! ## Claim theorems -/

/-- C1: for every date already present as a key in the store, resolving
that date returns the existing entry unchanged with an empty side-effect
trace: no metadata fetch, no download, no directory creation, no store
save, and the persisted store is exactly the loaded one. -/
theorem resolve_cached_returns_existing (store : Store) (date : String)
    (meta : ApodMeta) (fetchOk dlOk : Bool) (e : Entry)
    (h : dictLookup store date = some e) :
    resolve store date meta fetchOk dlOk = ⟨Outcome.cached e, store, []⟩ := by
  simp [resolve, h]

/-- Witness for C1 at a concrete cached store. -/
theorem resolve_cached_returns_existing_witness :
    resolve [("2024-01-01", { title := some "T", img := some "/h/p.jpg" })]
        "2024-01-01" { media_type := some "image" } true true
      = ⟨Outcome.cached { title := some "T", img := some "/h/p.jpg" },
         [("2024-01-01", { title := some "T", img := some "/h/p.jpg" })], []⟩ :=
  resolve_cached_returns_existing _ _ _ _ _ _ (by decide)

/-- Case analysis of resolve on an uncached date: exactly one of the five
branches of the source runs, and only the last one touches the store. -/
theorem resolve_uncached_cases (store : Store) (date : String) (meta : ApodMeta)
    (fetchOk dlOk : Bool) (h : dictLookup store date = none) :
    (fetchOk = false ∧ resolve store date meta fetchOk dlOk =
        ⟨Outcome.fetchFailed, store, [Ev.mkdirDateDir date, Ev.fetchMeta date]⟩) ∨
    (fetchOk = true ∧ meta.media_type ≠ some "image" ∧
      resolve store date meta fetchOk dlOk =
        ⟨Outcome.notAnImage meta.media_type, store, [Ev.mkdirDateDir date, Ev.fetchMeta date]⟩) ∨
    (fetchOk = true ∧ meta.media_type = some "image" ∧
      truthy (pyOr meta.hdurl meta.url) = false ∧
      resolve store date meta fetchOk dlOk =
        ⟨Outcome.missingUrl, store, [Ev.mkdirDateDir date, Ev.fetchMeta date]⟩) ∨
    (∃ u, fetchOk = true ∧ meta.media_type = some "image" ∧
      pyOr meta.hdurl meta.url = some u ∧ u.isEmpty = false ∧ dlOk = false ∧
      resolve store date meta fetchOk dlOk =
        ⟨Outcome.downloadFailed, store,
         [Ev.mkdirDateDir date, Ev.fetchMeta date, Ev.download u]⟩) ∨
    (∃ u, fetchOk = true ∧ meta.media_type = some "image" ∧
      pyOr meta.hdurl meta.url = some u ∧ u.isEmpty = false ∧ dlOk = true ∧
      resolve store date meta fetchOk dlOk =
        ⟨Outcome.fetched (entryFromMeta meta (download_image u (apodDir ++ "/" ++ date))),
         dictInsert store date (entryFromMeta meta (download_image u (apodDir ++ "/" ++ date))),
         [Ev.mkdirDateDir date, Ev.fetchMeta date, Ev.download u,
          Ev.fileWrite (download_image u (apodDir ++ "/" ++ date)),
          Ev.storeSave (dictInsert store date
            (entryFromMeta meta (download_image u (apodDir ++ "/" ++ date))))]⟩) := by
  cases fetchOk with
  | false => exact Or.inl ⟨rfl, by simp [resolve, h]⟩
  | true =>
      by_cases hm : meta.media_type = some "image"
      · rcases hu : pyOr meta.hdurl meta.url with _ | u
        · refine Or.inr (Or.inr (Or.inl ⟨rfl, hm, ?_, ?_⟩))
          · rfl
          · simp [resolve, h, hm, hu]
        · by_cases he : u.isEmpty
          · refine Or.inr (Or.inr (Or.inl ⟨rfl, hm, ?_, ?_⟩))
            · simp [truthy, he]
            · simp [resolve, h, hm, hu, he]
          · cases dlOk with
            | false =>
                exact Or.inr (Or.inr (Or.inr (Or.inl ⟨u, rfl, hm, rfl,
                  by simpa using he, rfl, by simp [resolve, h, hm, hu, he]⟩)))
            | true =>
                exact Or.inr (Or.inr (Or.inr (Or.inr ⟨u, rfl, hm, rfl,
                  by simpa using he, rfl, by simp [resolve, h, hm, hu, he]⟩)))
      · exact Or.inr (Or.inl ⟨rfl, hm, by simp [resolve, h, hm]⟩)

/-- C2: for a date not in the store, resolution commits no partial entry:
whenever the media kind is not image, or no non-empty image URL exists, or
the download raises, the persisted store is exactly the loaded one and no
store save appears in the trace; moreover any store save in the trace is
strictly preceded by the download and by the image file write. -/
theorem resolve_no_partial_commit (store : Store) (date : String)
    (meta : ApodMeta) (fetchOk dlOk : Bool)
    (h : dictLookup store date = none) :
    ((meta.media_type ≠ some "image" ∨ truthy (pyOr meta.hdurl meta.url) = false ∨ dlOk = false) →
      (resolve store date meta fetchOk dlOk).store = store ∧
      storeSaves (resolve store date meta fetchOk dlOk).trace = []) ∧
    (∀ i s2, (resolve store date meta fetchOk dlOk).trace.get? i = some (Ev.storeSave s2) →
      (∃ j u, j < i ∧ (resolve store date meta fetchOk dlOk).trace.get? j = some (Ev.download u)) ∧
      (∃ k p, k < i ∧ (resolve store date meta fetchOk dlOk).trace.get? k = some (Ev.fileWrite p))) := by
  rcases resolve_uncached_cases store date meta fetchOk dlOk h with
    ⟨_, hr⟩ | ⟨_, _, hr⟩ | ⟨_, _, _, hr⟩ | ⟨u, _, _, hu, hue, _, hr⟩ |
    ⟨u, _, hm, hu, hue, hdl, hr⟩
  · refine ⟨fun _ => ⟨by rw [hr], by rw [hr]; rfl⟩, ?_⟩
    intro i s2 hi
    rw [hr] at hi
    rcases i with _ | _ | i <;> simp_all
  · refine ⟨fun _ => ⟨by rw [hr], by rw [hr]; rfl⟩, ?_⟩
    intro i s2 hi
    rw [hr] at hi
    rcases i with _ | _ | i <;> simp_all
  · refine ⟨fun _ => ⟨by rw [hr], by rw [hr]; rfl⟩, ?_⟩
    intro i s2 hi
    rw [hr] at hi
    rcases i with _ | _ | i <;> simp_all
  · refine ⟨fun _ => ⟨by rw [hr], by rw [hr]; rfl⟩, ?_⟩
    intro i s2 hi
    rw [hr] at hi
    rcases i with _ | _ | _ | i <;> simp_all
  · constructor
    · intro hcase
      rcases hcase with hc | hc | hc
      · exact absurd hm hc
      · rw [hu] at hc
        simp [truthy, hue] at hc
      · rw [hdl] at hc
        simp at hc
    · intro i s2 hi
      rw [hr] at hi ⊢
      rcases i with _ | _ | _ | _ | _ | i
      · simp at hi
      · simp at hi
      · simp at hi
      · simp at hi
      · exact ⟨⟨2, u, by omega, rfl⟩,
          ⟨3, download_image u (apodDir ++ "/" ++ date), by omega, rfl⟩⟩
      · simp at hi

/-- Witness for C2: a video entry leaves the store untouched. -/
theorem resolve_no_partial_commit_witness :
    (resolve [] "2024-01-02" { media_type := some "video" } true true).store = [] ∧
    storeSaves (resolve [] "2024-01-02" { media_type := some "video" } true true).trace = [] :=
  (resolve_no_partial_commit [] "2024-01-02" { media_type := some "video" } true true
    (by decide)).1 (Or.inl (by decide))

/-- C5 (code bug in the source): in an environment where
XDG_CURRENT_DESKTOP is not ubuntu:GNOME and no xfce4-session process
exists, get_desktop_env returns None, and set_background then evaluates a
substring test on None, which raises TypeError instead of silently doing
nothing. -/
theorem set_background_unrecognized_raises :
    get_desktop_env ⟨some "KDE", false⟩ = none ∧
    get_desktop_env ⟨none, false⟩ = none ∧
    set_background ⟨some "KDE", false⟩
      = Except.error "TypeError: argument of type NoneType is not iterable" ∧
    set_background ⟨none, false⟩
      = Except.error "TypeError: argument of type NoneType is not iterable" :=
  ⟨rfl, rfl, rfl, rfl⟩

/-- C6 counterexample: a metadata object whose hdurl field is present (but
the empty string) makes the code download the standard url field, not the
high-definition field, refuting the claim that the hd field is used
whenever present. -/
theorem resolve_url_preference_counterexample :
    (ApodMeta.mk (some "image") (some "") (some "https://h/q.jpg") (some "T") (some "E")).hdurl.isSome = true ∧
    downloadUrls (resolve [] "2024-01-03"
        ⟨some "image", some "", some "https://h/q.jpg", some "T", some "E"⟩ true true).trace
      = ["https://h/q.jpg"] := by
  constructor
  · rfl
  · rfl

/-- C6 (amended): for an uncached date whose metadata is an image, the
downloaded URL is the hdurl field when that is a non-empty string,
otherwise the url field when that is a non-empty string; when neither is a
non-empty string the resolution ends with the missing-URL outcome, leaves
the store exactly as loaded, and downloads nothing. -/
theorem resolve_url_preference (store : Store) (date : String)
    (meta : ApodMeta) (dlOk : Bool)
    (h : dictLookup store date = none) (him : meta.media_type = some "image") :
    (truthy meta.hdurl = true →
      downloadUrls (resolve store date meta true dlOk).trace = [meta.hdurl.getD ""]) ∧
    (truthy meta.hdurl = false → truthy meta.url = true →
      downloadUrls (resolve store date meta true dlOk).trace = [meta.url.getD ""]) ∧
    (truthy meta.hdurl = false → truthy meta.url = false →
      (resolve store date meta true dlOk).out = Outcome.missingUrl ∧
      (resolve store date meta true dlOk).store = store ∧
      downloadUrls (resolve store date meta true dlOk).trace = []) := by
  have hpyp : truthy meta.hdurl = true → pyOr meta.hdurl meta.url = meta.hdurl :=
    fun hh => by simp [pyOr, hh]
  have hpyn : truthy meta.hdurl = false → pyOr meta.hdurl meta.url = meta.url :=
    fun hh => by simp [pyOr, hh]
  rcases resolve_uncached_cases store date meta true dlOk h with
    ⟨hc, _⟩ | ⟨_, hc, _⟩ | ⟨_, _, hpf, hr⟩ | ⟨u, _, _, hu, hue, _, hr⟩ |
    ⟨u, _, _, hu, hue, _, hr⟩
  · exact absurd hc (by simp)
  · exact absurd him hc
  · refine ⟨?_, ?_, ?_⟩
    · intro hhd
      rw [hpyp hhd] at hpf
      simp [hhd] at hpf
    · intro hhd hurl
      rw [hpyn hhd] at hpf
      simp [hurl] at hpf
    · intro _ _
      rw [hr]
      exact ⟨rfl, rfl, rfl⟩
  · refine ⟨?_, ?_, ?_⟩
    · intro hhd
      rw [hpyp hhd] at hu
      rw [hr, hu]
      simp [downloadUrls]
    · intro hhd _
      rw [hpyn hhd] at hu
      rw [hr, hu]
      simp [downloadUrls]
    · intro hhd hurl
      rw [hpyn hhd] at hu
      rw [hu] at hurl
      simp [truthy, hue] at hurl
  · refine ⟨?_, ?_, ?_⟩
    · intro hhd
      rw [hpyp hhd] at hu
      rw [hr, hu]
      simp [downloadUrls]
    · intro hhd _
      rw [hpyn hhd] at hu
      rw [hr, hu]
      simp [downloadUrls]
    · intro hhd hurl
      rw [hpyn hhd] at hu
      rw [hu] at hurl
      simp [truthy, hue] at hurl

/-- Witness for C6 at concrete metadata with both URL fields set. -/
theorem resolve_url_preference_witness :
    downloadUrls (resolve [] "2024-01-04"
        ⟨some "image", some "https://h/hd.jpg", some "https://h/sd.jpg", none, none⟩ true true).trace
      = ["https://h/hd.jpg"] :=
  (resolve_url_preference [] "2024-01-04"
    ⟨some "image", some "https://h/hd.jpg", some "https://h/sd.jpg", none, none⟩ true
    (by decide) (by decide)).1 (by decide)

/-- C8: the store serialisation round-trips: saving any store to the cache
file and loading it back yields exactly the original mapping. -/
theorem store_save_load_roundtrip (s : Store) :
    load_apod_json (some (save_apod_json s)) = some s := by
  show decodeFields (s.map fun p => (p.1, encodeEntry p.2)) = some s
  induction s with
  | nil => rfl
  | cons hd tl ih =>
      obtain ⟨k, e⟩ := hd
      simp [decodeFields, decodeEntry_encodeEntry, ih]

/-- C10: when the entry has no image path (field absent or empty), the
audio routine raises before loading or saving the store: the error is
returned with an empty effect trace and the state, including the
persisted store, exactly as before. -/
theorem ensure_audio_missing_img (date voice : String) (e : Entry)
    (force synthOk : Bool) (st : AudioState)
    (h : truthy e.img = false) :
    ensure_apod_audio date e voice force synthOk st =
      ⟨Except.error ("No image path for " ++ date ++ "; cannot create audio."), st, []⟩ := by
  rcases hi : e.img with _ | img
  · simp [ensure_apod_audio, hi]
  · rw [hi] at h
    have hemp : img.isEmpty = true := by simpa [truthy] using h
    simp [ensure_apod_audio, hi, hemp]

/-! Digit, token, and splitDash lemmas for the date-format proofs. -/

theorem digitVal_digitChar : ∀ n < 10, digitVal (digitChar n) = some n := by decide

theorem digitChar_ne_dash : ∀ n < 10, digitChar n ≠ '-' := by decide

theorem digitChar_lt_digitChar : ∀ a < 10, ∀ b < 10, a < b → digitChar a < digitChar b := by
  decide

theorem monthTok_pad2 : ∀ m < 13, 1 ≤ m → monthTok (pad2 m) = some m := by decide

theorem dayTok_pad2 : ∀ d < 32, 1 ≤ d → dayTok (pad2 d) = some d := by decide

theorem splitDash_noDash (a : List Char) (h : ∀ c ∈ a, c ≠ '-') : splitDash a = [a] := by
  induction a with
  | nil => rfl
  | cons c rest ih =>
      have hc : c ≠ '-' := h c (by simp)
      have hr := ih (fun x hx => h x (by simp [hx]))
      simp [splitDash, hc, hr]

theorem splitDash_append (a r : List Char) (h : ∀ c ∈ a, c ≠ '-') :
    splitDash (a ++ '-' :: r) = a :: splitDash r := by
  induction a with
  | nil => simp [splitDash]
  | cons c rest ih =>
      have hc : c ≠ '-' := h c (by simp)
      have hr := ih (fun x hx => h x (by simp [hx]))
      simp [splitDash, hc, hr]

theorem pad4_noDash (y : Nat) : ∀ c ∈ pad4 y, c ≠ '-' := by
  intro c hc
  simp only [pad4, List.mem_cons, List.not_mem_nil, or_false] at hc
  rcases hc with h | h | h | h <;> subst h <;>
    exact digitChar_ne_dash _ (Nat.mod_lt _ (by omega))

theorem pad2_noDash (n : Nat) : ∀ c ∈ pad2 n, c ≠ '-' := by
  intro c hc
  simp only [pad2, List.mem_cons, List.not_mem_nil, or_false] at hc
  rcases hc with h | h <;> subst h <;>
    exact digitChar_ne_dash _ (Nat.mod_lt _ (by omega))

theorem yearTok_pad4 (y : Nat) (h : y ≤ 9999) : yearTok (pad4 y) = some y := by
  have h3 : y / 1000 % 10 < 10 := Nat.mod_lt _ (by omega)
  have h2 : y / 100 % 10 < 10 := Nat.mod_lt _ (by omega)
  have h1 : y / 10 % 10 < 10 := Nat.mod_lt _ (by omega)
  have h0 : y % 10 < 10 := Nat.mod_lt _ (by omega)
  simp [yearTok, pad4, digitVal_digitChar _ h3, digitVal_digitChar _ h2,
    digitVal_digitChar _ h1, digitVal_digitChar _ h0]
  omega

theorem daysInMonth_le (y m : Nat) : daysInMonth y m ≤ 31 := by
  rw [daysInMonth]
  split
  · split <;> omega
  · split <;> omega

/-- strptime accepts every canonically padded real calendar date and
returns its triple. -/
theorem parseDate_canonical (y m d : Nat) (h : isRealDate y m d = true) :
    parseDate (canonicalDateString y m d) = some (y, m, d) := by
  have hb : (1 ≤ y ∧ y ≤ 9999 ∧ 1 ≤ m ∧ m ≤ 12 ∧ 1 ≤ d) ∧ d ≤ daysInMonth y m := by
    simp only [isRealDate, Bool.and_eq_true, decide_eq_true_eq] at h
    omega
  obtain ⟨⟨hy1, hy2, hm1, hm2, hd1⟩, hd2⟩ := hb
  have hdle := daysInMonth_le y m
  have htl : (canonicalDateString y m d).toList = canonicalDateChars y m d := rfl
  rw [parseDate, htl, canonicalDateChars]
  rw [splitDash_append _ _ (pad4_noDash y), splitDash_append _ _ (pad2_noDash m),
      splitDash_noDash _ (pad2_noDash d)]
  simp [yearTok_pad4 y hy2, monthTok_pad2 m (by omega) hm1,
    dayTok_pad2 d (by omega) hd1, hy1, hd2]

theorem digitVal_le (c : Char) (v : Nat) (h : digitVal c = some v) : v ≤ 9 := by
  rw [digitVal] at h
  split at h
  · rename_i hcond
    injection h with h2
    omega
  · cases h

theorem yearTok_le (cs : List Char) (y : Nat) (h : yearTok cs = some y) : y ≤ 9999 := by
  rcases cs with _ | ⟨a, _ | ⟨b, _ | ⟨c, _ | ⟨d, _ | ⟨e, tl⟩⟩⟩⟩⟩ <;>
    try simp [yearTok] at h
  rcases ha : digitVal a with _ | va <;> rcases hb : digitVal b with _ | vb <;>
    rcases hc : digitVal c with _ | vc <;> rcases hd : digitVal d with _ | vd <;>
    simp [yearTok, ha, hb, hc, hd] at h
  have := digitVal_le a va ha
  have := digitVal_le b vb hb
  have := digitVal_le c vc hc
  have := digitVal_le d vd hd
  omega

theorem monthTok_range (cs : List Char) (m : Nat) (h : monthTok cs = some m) :
    1 ≤ m ∧ m ≤ 12 := by
  rcases cs with _ | ⟨a, _ | ⟨b, _ | ⟨c, tl⟩⟩⟩
  · simp [monthTok] at h
  · rcases ha : digitVal a with _ | va <;> simp [monthTok, ha] at h
    have := digitVal_le a va ha
    omega
  · rcases ha : digitVal a with _ | va <;> rcases hb : digitVal b with _ | vb <;>
      simp [monthTok, ha, hb] at h
    have hva := digitVal_le a va ha
    have hvb := digitVal_le b vb hb
    split at h
    · rename_i hc1
      simp at h
      omega
    · split at h
      · rename_i hc2
        simp at h
        omega
      · simp at h
  · simp [monthTok] at h

theorem dayTok_range (cs : List Char) (d : Nat) (h : dayTok cs = some d) :
    1 ≤ d ∧ d ≤ 31 := by
  rcases cs with _ | ⟨a, _ | ⟨b, _ | ⟨c, tl⟩⟩⟩
  · simp [dayTok] at h
  · rcases ha : digitVal a with _ | va <;> simp [dayTok, ha] at h
    have := digitVal_le a va ha
    omega
  · rcases ha : digitVal a with _ | va <;> rcases hb : digitVal b with _ | vb <;>
      simp [dayTok, ha, hb] at h
    have hva := digitVal_le a va ha
    have hvb := digitVal_le b vb hb
    split at h
    · rename_i hc1
      simp at h
      omega
    · split at h
      · rename_i hc2
        simp at h
        omega
      · split at h
        · rename_i hc3
          simp at h
          omega
        · simp at h
  · simp [dayTok] at h

/-- Every triple strptime accepts is a real calendar date. -/
theorem parseDate_sound (s : String) (y m d : Nat)
    (h : parseDate s = some (y, m, d)) : isRealDate y m d = true := by
  rw [parseDate] at h
  rcases hsp : splitDash s.toList with _ | ⟨ys, _ | ⟨ms, _ | ⟨ds, _ | ⟨x, tl⟩⟩⟩⟩ <;>
    rw [hsp] at h <;> try simp at h
  rcases hy : yearTok ys with _ | y2 <;> rcases hm : monthTok ms with _ | m2 <;>
    rcases hd : dayTok ds with _ | d2 <;> simp [hy, hm, hd] at h
  obtain ⟨⟨hy1, hdm⟩, rfl, rfl, rfl⟩ := h
  have hyl := yearTok_le ys y2 hy
  have hmr := monthTok_range ms m2 hm
  have hdr := dayTok_range ds d2 hd
  simp only [isRealDate, Bool.and_eq_true, decide_eq_true_eq]
  omega

/-! Lexicographic-order lemmas: on canonically padded date strings, the
code-point string order that Python sorted() uses coincides with calendar
order.  We construct List.Lex derivations digit by digit. -/

theorem lex_append_right {r : Char → Char → Prop} :
    ∀ {a b : List Char}, List.Lex r a b → a.length = b.length →
      ∀ (u v : List Char), List.Lex r (a ++ u) (b ++ v) := by
  intro a b h
  induction h with
  | nil => intro hlen; simp at hlen
  | cons h ih =>
      intro hlen u v
      exact List.Lex.cons (ih (by simpa using hlen) u v)
  | rel h =>
      intro _ u v
      exact List.Lex.rel h

theorem lex_append_left {r : Char → Char → Prop} (p : List Char) {u v : List Char}
    (h : List.Lex r u v) : List.Lex r (p ++ u) (p ++ v) := by
  induction p with
  | nil => simpa using h
  | cons c cs ih => exact List.Lex.cons ih

theorem pad2_lex {a b : Nat} (ha : a ≤ 99) (hb : b ≤ 99) (h : a < b) :
    List.Lex (· < ·) (pad2 a) (pad2 b) := by
  have hsplit : a / 10 % 10 < b / 10 % 10 ∨
      (a / 10 % 10 = b / 10 % 10 ∧ a % 10 < b % 10) := by omega
  rcases hsplit with hc | ⟨hc, hc2⟩
  · exact List.Lex.rel (digitChar_lt_digitChar _ (Nat.mod_lt _ (by omega)) _
      (Nat.mod_lt _ (by omega)) hc)
  · rw [pad2, pad2, hc]
    exact List.Lex.cons (List.Lex.rel (digitChar_lt_digitChar _
      (Nat.mod_lt _ (by omega)) _ (Nat.mod_lt _ (by omega)) hc2))

theorem pad4_lex {a b : Nat} (ha : a ≤ 9999) (hb : b ≤ 9999) (h : a < b) :
    List.Lex (· < ·) (pad4 a) (pad4 b) := by
  have hda1 : a / 10 / 10 = a / 100 := by
    rw [Nat.div_div_eq_div_mul]
  have hda2 : a / 100 / 10 = a / 1000 := by
    rw [Nat.div_div_eq_div_mul]
  have hdb1 : b / 10 / 10 = b / 100 := by
    rw [Nat.div_div_eq_div_mul]
  have hdb2 : b / 100 / 10 = b / 1000 := by
    rw [Nat.div_div_eq_div_mul]
  rcases Nat.lt_or_ge (a / 1000) (b / 1000) with h3 | h3
  · exact List.Lex.rel (digitChar_lt_digitChar _ (Nat.mod_lt _ (by omega)) _
      (Nat.mod_lt _ (by omega)) (by omega))
  · have h3e : a / 1000 = b / 1000 := by omega
    have he3 : a / 1000 % 10 = b / 1000 % 10 := by omega
    rw [pad4, pad4, he3]
    apply List.Lex.cons
    rcases Nat.lt_or_ge (a / 100) (b / 100) with h2 | h2
    · exact List.Lex.rel (digitChar_lt_digitChar _ (Nat.mod_lt _ (by omega)) _
        (Nat.mod_lt _ (by omega)) (by omega))
    · have h2e : a / 100 = b / 100 := by omega
      have he2 : a / 100 % 10 = b / 100 % 10 := by omega
      rw [he2]
      apply List.Lex.cons
      rcases Nat.lt_or_ge (a / 10) (b / 10) with h1 | h1
      · exact List.Lex.rel (digitChar_lt_digitChar _ (Nat.mod_lt _ (by omega)) _
          (Nat.mod_lt _ (by omega)) (by omega))
      · have h1e : a / 10 = b / 10 := by omega
        have he1 : a / 10 % 10 = b / 10 % 10 := by omega
        rw [he1]
        exact List.Lex.cons (List.Lex.rel (digitChar_lt_digitChar _
          (Nat.mod_lt _ (by omega)) _ (Nat.mod_lt _ (by omega)) (by omega)))

theorem canonicalChars_lex {y1 m1 d1 y2 m2 d2 : Nat}
    (hy1 : y1 ≤ 9999) (hy2 : y2 ≤ 9999) (hm1 : m1 ≤ 99) (hm2 : m2 ≤ 99)
    (hd1 : d1 ≤ 99) (hd2 : d2 ≤ 99)
    (hlt : y1 < y2 ∨ (y1 = y2 ∧ (m1 < m2 ∨ (m1 = m2 ∧ d1 < d2)))) :
    List.Lex (· < ·) (canonicalDateChars y1 m1 d1) (canonicalDateChars y2 m2 d2) := by
  rcases hlt with hy | ⟨rfl, hm | ⟨rfl, hd⟩⟩
  · exact lex_append_right (pad4_lex hy1 hy2 hy) (by simp [pad4]) _ _
  · rw [canonicalDateChars, canonicalDateChars]
    exact lex_append_left _ (List.Lex.cons
      (lex_append_right (pad2_lex hm1 hm2 hm) (by simp [pad2]) _ _))
  · rw [canonicalDateChars, canonicalDateChars]
    exact lex_append_left _ (List.Lex.cons (lex_append_left _
      (List.Lex.cons (pad2_lex hd1 hd2 hd))))

theorem realDate_bounds {y m d : Nat} (h : isRealDate y m d = true) :
    y ≤ 9999 ∧ m ≤ 99 ∧ d ≤ 99 := by
  simp only [isRealDate, Bool.and_eq_true, decide_eq_true_eq] at h
  have := daysInMonth_le y m
  omega

theorem canonicalString_lt {y1 m1 d1 y2 m2 d2 : Nat}
    (hr1 : isRealDate y1 m1 d1 = true) (hr2 : isRealDate y2 m2 d2 = true)
    (hlt : y1 < y2 ∨ (y1 = y2 ∧ (m1 < m2 ∨ (m1 = m2 ∧ d1 < d2)))) :
    canonicalDateString y1 m1 d1 < canonicalDateString y2 m2 d2 := by
  obtain ⟨ha1, ha2, ha3⟩ := realDate_bounds hr1
  obtain ⟨hb1, hb2, hb3⟩ := realDate_bounds hr2
  rw [String.lt_iff_toList_lt]
  exact canonicalChars_lex ha1 hb1 ha2 hb2 ha3 hb3 hlt

/-- On canonical date strings, the string order used by sorted() implies
calendar order of the parsed dates. -/
theorem canonical_le_calendarLe {s1 s2 : String}
    (h1 : ∃ y m d, isRealDate y m d = true ∧ s1 = canonicalDateString y m d)
    (h2 : ∃ y m d, isRealDate y m d = true ∧ s2 = canonicalDateString y m d)
    (hle : s1 ≤ s2) : calendarLe s1 s2 := by
  obtain ⟨y1, m1, d1, hr1, rfl⟩ := h1
  obtain ⟨y2, m2, d2, hr2, rfl⟩ := h2
  refine ⟨(y1, m1, d1), (y2, m2, d2), parseDate_canonical _ _ _ hr1,
    parseDate_canonical _ _ _ hr2, ?_⟩
  show y1 < y2 ∨ (y1 = y2 ∧ (m1 < m2 ∨ (m1 = m2 ∧ d1 ≤ d2)))
  by_contra hcon
  have hlt : y2 < y1 ∨ (y2 = y1 ∧ (m2 < m1 ∨ (m2 = m1 ∧ d2 < d1))) := by omega
  exact absurd (canonicalString_lt hr2 hr1 hlt) (not_lt.mpr hle)

/-- The sort produced by sorted(data.items()) is pairwise key-ordered. -/
theorem pySortedItems_pairwise (s : Store) :
    (pySortedItems s).Pairwise (fun a b => decide (a.1 ≤ b.1) = true) :=
  List.sorted_mergeSort
    (fun a b c hab hbc => by
      simp only [decide_eq_true_eq] at *
      exact le_trans hab hbc)
    (fun a b => by
      simp only [Bool.or_eq_true, decide_eq_true_eq]
      exact le_total a.1 b.1)
    s

/-- With distinct keys the sorted items are strictly key-ordered. -/
theorem pySortedItems_pairwise_lt (s : Store) (hnd : (s.map Prod.fst).Nodup) :
    (pySortedItems s).Pairwise (fun p q => p.1 < q.1) := by
  have hnd2 : ((pySortedItems s).map Prod.fst).Nodup :=
    (((List.mergeSort_perm s _).map Prod.fst).nodup_iff).mpr hnd
  have hne : (pySortedItems s).Pairwise (fun p q => p.1 ≠ q.1) :=
    List.pairwise_map.mp hnd2
  exact ((pySortedItems_pairwise s).and hne).imp
    (fun hab => lt_of_le_of_ne (by simpa using hab.1) hab.2)

/-- C7: listing an empty store reports no entries and raises nothing; on
any store with well-formed distinct date keys the listing is a pure read
that prints every entry exactly once, in ascending calendar order of the
keys, and its result does not depend on the insertion order of the
store. -/
theorem list_cached_apods_spec (store : Store)
    (hkeys : ∀ p ∈ store, ∃ y m d, isRealDate y m d = true ∧
      p.1 = canonicalDateString y m d)
    (hnodup : (store.map Prod.fst).Nodup) :
    (list_cached_apods []).1 = ["No cached APODs found."] ∧
    (list_cached_apods store).2 = store ∧
    (store ≠ [] → (list_cached_apods store).1
      = (pySortedItems store).map (fun p => entryLine p.1 p.2)) ∧
    List.Perm (pySortedItems store) store ∧
    (pySortedItems store).Pairwise (fun p q => calendarLe p.1 q.1) ∧
    (∀ store2, List.Perm store2 store → pySortedItems store2 = pySortedItems store) := by
  refine ⟨rfl, ?_, ?_, List.mergeSort_perm store _, ?_, ?_⟩
  · rw [list_cached_apods]
    split <;> rfl
  · intro hne
    rcases store with _ | ⟨p, tl⟩
    · exact absurd rfl hne
    · rfl
  · exact (pySortedItems_pairwise store).imp_of_mem
      (fun hma hmb hab => canonical_le_calendarLe
        (hkeys _ (List.mem_mergeSort.mp hma))
        (hkeys _ (List.mem_mergeSort.mp hmb))
        (by simpa using hab))
  · intro store2 hperm
    haveI hanti : IsAntisymm (String × Entry) (fun p q => p.1 < q.1) :=
      ⟨fun a b h1 h2 => absurd (lt_trans h1 h2) (lt_irrefl _)⟩
    have hnd2 : (store2.map Prod.fst).Nodup :=
      ((hperm.map Prod.fst).nodup_iff).mpr hnodup
    exact List.eq_of_perm_of_sorted
      (((List.mergeSort_perm store2 _).trans hperm).trans
        (List.mergeSort_perm store _).symm)
      (pySortedItems_pairwise_lt store2 hnd2)
      (pySortedItems_pairwise_lt store hnodup)

/-- Witness for C7: a two-entry store inserted out of order lists in
calendar order and permutes the original entries. -/
theorem list_cached_apods_spec_witness :
    (pySortedItems [("2024-01-02", ({ title := some "B" } : Entry)),
        ("2024-01-01", ({ title := some "A" } : Entry))]).Pairwise
      (fun p q => calendarLe p.1 q.1) ∧
    List.Perm
      (pySortedItems [("2024-01-02", ({ title := some "B" } : Entry)),
        ("2024-01-01", ({ title := some "A" } : Entry))])
      [("2024-01-02", ({ title := some "B" } : Entry)),
        ("2024-01-01", ({ title := some "A" } : Entry))] := by
  have h := list_cached_apods_spec
    [("2024-01-02", ({ title := some "B" } : Entry)),
     ("2024-01-01", ({ title := some "A" } : Entry))]
    (by
      intro p hp
      simp only [List.mem_cons, List.not_mem_nil, or_false] at hp
      rcases hp with rfl | rfl
      · exact ⟨2024, 1, 2, by decide, by decide⟩
      · exact ⟨2024, 1, 1, by decide, by decide⟩)
    (by decide)
  exact ⟨h.2.2.2.2.1, h.2.2.2.1⟩

/-- C4 counterexample: the string 2024-1-1 is accepted by is_valid_date
although it is not a calendar date in the exact zero-padded YYYY-MM-DD
format (it has one-digit month and day fields), refuting the
accepts-iff-canonical-format claim. -/
theorem date_validation_counterexample :
    is_valid_date "2024-1-1" = true ∧ ¬ SpecCanonicalDate "2024-1-1" := by
  constructor
  · decide
  · rintro ⟨y, m, d, hr, heq⟩
    have hlen := congrArg String.length heq
    have h1 : ("2024-1-1").length = 8 := by decide
    have h2 : (canonicalDateString y m d).length = 10 := by
      show (canonicalDateChars y m d).length = 10
      simp [canonicalDateChars, pad4, pad2]
    rw [h1, h2] at hlen
    omega

/-- C4 (amended): date validation accepts every real calendar date in
zero-padded YYYY-MM-DD form; every string it accepts denotes a real
calendar date with a four-digit year, but zero padding of month and day
is not enforced; and every rejected string (other than the sentinel the
--today flag uses) makes the process exit with code 1 and leave the
store exactly as it was. -/
theorem date_validation_amended :
    (∀ y m d, isRealDate y m d = true → is_valid_date (canonicalDateString y m d) = true) ∧
    (∀ s y m d, parseDate s = some (y, m, d) → isRealDate y m d = true) ∧
    (∀ s, is_valid_date s = false → s ≠ "__TODAY__" →
      ∀ apiKey todayStr store meta fetchOk dlOk, truthy apiKey = true →
        mainRun apiKey false (some s) todayStr store meta fetchOk dlOk
          = ⟨some 1, store⟩) := by
  refine ⟨?_, ?_, ?_⟩
  · intro y m d h
    rw [is_valid_date, parseDate_canonical y m d h]
    rfl
  · exact fun s y m d h => parseDate_sound s y m d h
  · intro s hv hts apiKey todayStr store meta fetchOk dlOk hk
    by_cases hse : s.isEmpty = true
    · simp [mainRun, hk, hts, hse]
    · simp [mainRun, hk, hts, hse, hv]

/-- Witness for C4: a padded leap date is accepted; an invalid string
exits 1 with the store untouched. -/
theorem date_validation_amended_witness :
    is_valid_date (canonicalDateString 2024 2 29) = true ∧
    mainRun (some "k") false (some "2024-13-01") "t" [] {} true true = ⟨some 1, []⟩ :=
  ⟨date_validation_amended.1 2024 2 29 (by decide),
   date_validation_amended.2.2 "2024-13-01" (by decide) (by decide)
     (some "k") "t" [] {} true true (by decide)⟩

/-! Computation lemmas for the four branches of ensure_apod_audio with
force = false and a usable image path. -/

theorem setMp3Strict_of_mem (s : Store) (date p : String) (e : Entry)
    (h : dictLookup s date = some e) :
    setMp3Strict s date p = some (dictInsert s date { e with mp3 := some p }) := by
  simp [setMp3Strict, h]

theorem setMp3Upsert_of_mem (s : Store) (date p : String) (e : Entry)
    (h : dictLookup s date = some e) :
    setMp3Upsert s date p = dictInsert s date { e with mp3 := some p } := by
  simp [setMp3Upsert, h]

theorem ensure_exists_noop (date voice : String) (e : Entry) (sOk : Bool)
    (st : AudioState) (img : String)
    (himg : e.img = some img) (hne : img.isEmpty = false)
    (hc : st.fs.contains (build_mp3_path_for_image img) = true)
    (hm : e.mp3 = some (build_mp3_path_for_image img)) :
    ensure_apod_audio date e voice false sOk st =
      ⟨Except.ok (build_mp3_path_for_image img), st, []⟩ := by
  have hmem : build_mp3_path_for_image img ∈ st.fs := by simpa using hc
  simp [ensure_apod_audio, himg, hne, hmem, hm]

theorem ensure_exists_heal (date voice : String) (e : Entry) (sOk : Bool)
    (st : AudioState) (img : String)
    (himg : e.img = some img) (hne : img.isEmpty = false)
    (hc : st.fs.contains (build_mp3_path_for_image img) = true)
    (hm : e.mp3 ≠ some (build_mp3_path_for_image img))
    (hentry : dictLookup st.storeFile date = some e) :
    ensure_apod_audio date e voice false sOk st =
      ⟨Except.ok (build_mp3_path_for_image img),
       ⟨st.fs, dictInsert st.storeFile date
          { e with mp3 := some (build_mp3_path_for_image img) }⟩,
       [AEv.loadStore, AEv.saveStore]⟩ := by
  have hmem : build_mp3_path_for_image img ∈ st.fs := by simpa using hc
  simp [ensure_apod_audio, himg, hne, hmem, hm,
    setMp3Strict_of_mem st.storeFile date (build_mp3_path_for_image img) e hentry]

theorem ensure_synth_run (date voice : String) (e : Entry)
    (st : AudioState) (img : String)
    (himg : e.img = some img) (hne : img.isEmpty = false)
    (hc : st.fs.contains (build_mp3_path_for_image img) = false) :
    ensure_apod_audio date e voice false true st =
      ⟨Except.ok (build_mp3_path_for_image img),
       ⟨build_mp3_path_for_image img :: st.fs,
        setMp3Upsert st.storeFile date (build_mp3_path_for_image img)⟩,
       [AEv.synth (mkText e) voice (build_mp3_path_for_image img),
        AEv.loadStore, AEv.saveStore]⟩ := by
  have hmem : build_mp3_path_for_image img ∉ st.fs := by simpa using hc
  simp [ensure_apod_audio, himg, hne, hmem]

theorem ensure_synth_fail (date voice : String) (e : Entry)
    (st : AudioState) (img : String)
    (himg : e.img = some img) (hne : img.isEmpty = false)
    (hc : st.fs.contains (build_mp3_path_for_image img) = false) :
    ensure_apod_audio date e voice false false st =
      ⟨Except.error "synthesis failed", st,
       [AEv.synth (mkText e) voice (build_mp3_path_for_image img)]⟩ := by
  have hmem : build_mp3_path_for_image img ∉ st.fs := by simpa using hc
  simp [ensure_apod_audio, himg, hne, hmem]

/-- C3: with force = false, when the derived audio file already exists the
call performs no synthesis and returns that path, touching the store only
when the entry mp3 field does not already equal it; and two successive
completed calls perform at most one synthesis in total. -/
theorem ensure_audio_at_most_once (st : AudioState) (date voice : String)
    (e : Entry) (img : String) (sOk1 sOk2 : Bool)
    (himg : e.img = some img) (hne : img.isEmpty = false)
    (hentry : dictLookup st.storeFile date = some e) :
    (st.fs.contains (build_mp3_path_for_image img) = true →
      synthCount (ensure_apod_audio date e voice false sOk1 st).trace = 0 ∧
      (ensure_apod_audio date e voice false sOk1 st).res
        = Except.ok (build_mp3_path_for_image img) ∧
      (e.mp3 = some (build_mp3_path_for_image img) →
        ensure_apod_audio date e voice false sOk1 st
          = ⟨Except.ok (build_mp3_path_for_image img), st, []⟩) ∧
      (e.mp3 ≠ some (build_mp3_path_for_image img) →
        (ensure_apod_audio date e voice false sOk1 st).st.storeFile
          = dictInsert st.storeFile date
              { e with mp3 := some (build_mp3_path_for_image img) } ∧
        (ensure_apod_audio date e voice false sOk1 st).trace
          = [AEv.loadStore, AEv.saveStore])) ∧
    (∀ p1 e2 p2,
      (ensure_apod_audio date e voice false sOk1 st).res = Except.ok p1 →
      dictLookup (ensure_apod_audio date e voice false sOk1 st).st.storeFile date = some e2 →
      (ensure_apod_audio date e2 voice false sOk2
          (ensure_apod_audio date e voice false sOk1 st).st).res = Except.ok p2 →
      synthCount (ensure_apod_audio date e voice false sOk1 st).trace +
        synthCount (ensure_apod_audio date e2 voice false sOk2
          (ensure_apod_audio date e voice false sOk1 st).st).trace ≤ 1) := by
  constructor
  · intro hc
    by_cases hm : e.mp3 = some (build_mp3_path_for_image img)
    · rw [ensure_exists_noop date voice e sOk1 st img himg hne hc hm]
      exact ⟨rfl, rfl, fun _ => rfl, fun hm2 => absurd hm hm2⟩
    · rw [ensure_exists_heal date voice e sOk1 st img himg hne hc hm hentry]
      exact ⟨rfl, rfl, fun hm2 => absurd hm2 hm, fun _ => ⟨rfl, rfl⟩⟩
  · intro p1 e2 p2 h1 h2 h3
    by_cases hc : st.fs.contains (build_mp3_path_for_image img) = true
    · by_cases hm : e.mp3 = some (build_mp3_path_for_image img)
      · rw [ensure_exists_noop date voice e sOk1 st img himg hne hc hm] at h2 ⊢
        rw [hentry] at h2
        obtain rfl : e = e2 := by injection h2
        rw [ensure_exists_noop date voice e sOk2 st img himg hne hc hm]
        simp [synthCount]
      · rw [ensure_exists_heal date voice e sOk1 st img himg hne hc hm hentry] at h2 ⊢
        rw [dictLookup_dictInsert_self] at h2
        obtain rfl : ({ e with mp3 := some (build_mp3_path_for_image img) } : Entry) = e2 := by
          injection h2
        rw [ensure_exists_noop date voice
          { e with mp3 := some (build_mp3_path_for_image img) } sOk2
          ⟨st.fs, dictInsert st.storeFile date
            { e with mp3 := some (build_mp3_path_for_image img) }⟩
          img himg hne hc rfl]
        simp [synthCount]
    · have hcf : st.fs.contains (build_mp3_path_for_image img) = false := by
        simpa using hc
      cases sOk1 with
      | false =>
          rw [ensure_synth_fail date voice e st img himg hne hcf] at h1
          exact absurd h1 (by simp)
      | true =>
          rw [ensure_synth_run date voice e st img himg hne hcf] at h2 ⊢
          rw [setMp3Upsert_of_mem st.storeFile date _ e hentry] at h2
          rw [dictLookup_dictInsert_self] at h2
          obtain rfl : ({ e with mp3 := some (build_mp3_path_for_image img) } : Entry) = e2 := by
            injection h2
          rw [ensure_exists_noop date voice
            { e with mp3 := some (build_mp3_path_for_image img) } sOk2
            ⟨build_mp3_path_for_image img :: st.fs,
             setMp3Upsert st.storeFile date (build_mp3_path_for_image img)⟩
            img himg hne (by simp) rfl]
          simp [synthCount]

/-- Witness for C3: a cached audio file is reused without synthesis. -/
theorem ensure_audio_at_most_once_witness :
    synthCount (ensure_apod_audio "2024-01-01" { img := some "/p/a.jpg" } "v" false true
        ⟨["/p/a.mp3"], [("2024-01-01", { img := some "/p/a.jpg" })]⟩).trace = 0 ∧
    (ensure_apod_audio "2024-01-01" { img := some "/p/a.jpg" } "v" false true
        ⟨["/p/a.mp3"], [("2024-01-01", { img := some "/p/a.jpg" })]⟩).res
      = Except.ok (build_mp3_path_for_image "/p/a.jpg") := by
  have h := (ensure_audio_at_most_once
    ⟨["/p/a.mp3"], [("2024-01-01", { img := some "/p/a.jpg" })]⟩
    "2024-01-01" "v" { img := some "/p/a.jpg" } "/p/a.jpg" true true
    rfl (by decide) (by decide)).1 (by decide)
  exact ⟨h.1, h.2.1⟩

/-- C9 counterexample: with the list flag set, an invalid date argument is
never validated; the process lists the cache and exits 0, not 1. -/
theorem main_exit_list_flag_counterexample :
    is_valid_date "01-01-2024" = false ∧
    mainRun (some "k") true (some "01-01-2024") "2024-05-05" [] {} true true
      = ⟨some 0, []⟩ :=
  ⟨by decide, rfl⟩

/-- C9 (amended): a completed invocation exits 1 exactly when the API key
is missing, or the list flag is off and the effective date argument is
missing, empty, or invalid; every other completed invocation exits 0
(including non-image skips); the list flag bypasses date validation. -/
theorem main_exit_characterization (apiKey : Option String) (listCached : Bool)
    (dateArg : Option String) (todayStr : String) (store : Store) (meta : ApodMeta)
    (fetchOk dlOk : Bool) :
    ((mainRun apiKey listCached dateArg todayStr store meta fetchOk dlOk).exitCode = some 1 ↔
      (truthy apiKey = false ∨ (listCached = false ∧
        (truthy (if dateArg = some "__TODAY__" then some todayStr else dateArg) = false ∨
         is_valid_date ((if dateArg = some "__TODAY__" then some todayStr else dateArg).getD "")
           = false)))) ∧
    (∀ c, (mainRun apiKey listCached dateArg todayStr store meta fetchOk dlOk).exitCode = some c →
      c = 0 ∨ c = 1) := by
  by_cases hk : truthy apiKey = false
  · constructor
    · simp [mainRun, hk]
    · intro c hc
      simp [mainRun, hk] at hc
      omega
  · have hk2 : truthy apiKey = true := by simpa using hk
    cases listCached with
    | true =>
        constructor
        · simp [mainRun, hk2]
        · intro c hc
          simp [mainRun, hk2] at hc
          omega
    | false =>
        rcases hds : (if dateArg = some "__TODAY__" then some todayStr else dateArg) with _ | d
        · constructor
          · simp [mainRun, hk2, hds, truthy]
          · intro c hc
            simp [mainRun, hk2, hds] at hc
            omega
        · by_cases hde : d.isEmpty = true
          · constructor
            · simp [mainRun, hk2, hds, hde, truthy]
            · intro c hc
              simp [mainRun, hk2, hds, hde] at hc
              omega
          · have hde2 : d.isEmpty = false := by simpa using hde
            by_cases hv : is_valid_date d = false
            · constructor
              · simp [mainRun, hk2, hds, hde2, hv, truthy]
              · intro c hc
                simp [mainRun, hk2, hds, hde2, hv] at hc
                omega
            · have hv2 : is_valid_date d = true := by simpa using hv
              have htd : truthy (some d) = true := by simp [truthy, hde2]
              rcases ho : (resolve store d meta fetchOk dlOk).out with e | e | _ | mt | _ | _ <;>
                constructor <;>
                simp [mainRun, hk2, hds, hde2, hv2, htd, ho]

/-- Witness for C9: a missing API key exits 1 through the iff. -/
theorem main_exit_characterization_witness :
    (mainRun none false (some "2024-01-01") "t" [] {} true true).exitCode = some 1 :=
  (main_exit_characterization none false (some "2024-01-01") "t" [] {} true true).1.mpr
    (Or.inl rfl)

/-- Witness for C10 at an entry with no img field. -/
theorem ensure_audio_missing_img_witness :
    ensure_apod_audio "2024-01-01" {} "v" false true ⟨[], []⟩ =
      ⟨Except.error ("No image path for " ++ "2024-01-01" ++ "; cannot create audio."),
       ⟨[], []⟩, []⟩ :=
  ensure_audio_missing_img "2024-01-01" "v" {} false true ⟨[], []⟩ (by decide)

end Apod

/-! Concrete evaluations validating the embedding against the source. -/
section SanityChecks
open Apod
example : is_valid_date "2024-01-01" = true := by decide
example : is_valid_date "2024-1-1" = true := by decide
example : is_valid_date "01-01-2024" = false := by decide
example : is_valid_date "2024-02-30" = false := by decide
example : is_valid_date "2024-02-29" = true := by decide
example : is_valid_date "2023-02-29" = false := by decide
example : is_valid_date "2024-13-01" = false := by decide
example : is_valid_date "2024-01-123" = false := by decide
example : is_valid_date "24-01-01" = false := by decide
example : canonicalDateString 2024 1 2 = "2024-01-02" := by decide
example : parseDate "2024-1-1" = some (2024, 1, 1) := by decide
example : build_mp3_path_for_image "/h/Pictures/apod/2024-01-01/pic.jpg"
    = "/h/Pictures/apod/2024-01-01/pic.mp3" := by decide
example : build_mp3_path_for_image "/a/b.x/pic" = "/a/b.x/pic.mp3" := by decide
example : urlBasename "https://apod.nasa.gov/apod/image/x/pic.jpg" = "pic.jpg" := by decide
example : urlBasename "https://h/a/pic.jpg?q=1" = "pic.jpg" := by decide
example : get_desktop_env ⟨some "KDE", false⟩ = none := by decide
example : set_background ⟨none, false⟩ = Except.error "TypeError: argument of type NoneType is not iterable" := rfl
example : strContains "ubuntu:xfce4" "xfce" = true := by decide
example : (resolve [] "2024-01-01" ⟨some "image", some "https://h/p.jpg", some "https://h/q.jpg", some "T", some "E"⟩ true true).out
    = Outcome.fetched ⟨some "T", some "E", some "https://h/q.jpg", some "~/Pictures/apod/2024-01-01/p.jpg", none⟩ := by decide
end SanityChecks
